import Mathlib

/-!
Shallow embedding of the financial core of `scripts_datos_general.py`
(class `ExcelAnalyzer`): column classification, numeric coercion of
monetary columns, and the financial-totals aggregation.

Modelling conventions:
* A cell is numeric, text, or null (the spec's "typed sum" view of the
  heterogeneous spreadsheet cells); numbers are exact rationals.
* A column label is either a string or a non-string label (integers are
  the representative non-string case the spec names).
* The Python `dict` of totals is an insertion-ordered association list;
  assigning to an existing key updates its value in place, assigning to
  a fresh key appends, matching Python 3.7+ dict semantics.
* Python's substring test `a in b` is `containsSub`, and `str.lower` is
  per-character `Char.toLower` (the keywords are all ASCII).
-/

/-- A spreadsheet cell: a number, a piece of text, or a missing value. -/
inductive Cell where
  | num (q : Rat)
  | text (s : String)
  | null
deriving DecidableEq, Repr

/-- A column label of the DataFrame: a string, or a non-string label
(modelled by the integer case, as in the spec's examples). -/
inductive ColName where
  | str (s : String)
  | intLabel (n : Int)
deriving DecidableEq, Repr

/-- How Python renders a column label inside an f-string. -/
def colNameStr : ColName → String
  | .str s => s
  | .intLabel n => toString n

/-- A table: an ordered sequence of named columns of cells
(the loaded DataFrame). -/
structure Table where
  cols : List (ColName × List Cell)
deriving DecidableEq, Repr

/-- Python's `str.lower()`, per character. -/
def lowerStr (s : String) : String := String.mk (s.toList.map Char.toLower)

/-- Executable check that `t` is a prefix of `s` (over characters). -/
def startsWithL : List Char → List Char → Bool
  | [], _ => true
  | _ :: _, [] => false
  | a :: as, b :: bs => a == b && startsWithL as bs

/-- Executable unanchored substring search over characters. -/
def containsSubL (t : List Char) : List Char → Bool
  | [] => t.isEmpty
  | b :: bs => startsWithL t (b :: bs) || containsSubL t bs

/-- Python's substring test `t in s` on strings. -/
def containsSub (t s : String) : Bool := containsSubL t.toList s.toList

/-- `ExcelAnalyzer.COLUMNAS_FINANCIERAS`: the fixed monetary keyword list. -/
def COLUMNAS_FINANCIERAS : List String :=
  ["monto", "subtotal", "iva", "total", "descuento", "impuesto", "factura", "precio"]

/-- The classification predicate used by `_identificar_columnas` and
`_preparar_columnas_financieras`: the label is a string and its lowercase
form contains one of the financial keywords. -/
def esMonetaria : ColName → Bool
  | .str s => COLUMNAS_FINANCIERAS.any (fun t => containsSub t (lowerStr s))
  | .intLabel _ => false

/-- `_identificar_columnas`: the monetary columns (in table order) and the
remaining columns (those not in the monetary list, in table order). -/
def identificarColumnas (cols : List ColName) : List ColName × List ColName :=
  let monetarias := cols.filter esMonetaria
  let noMonetarias := cols.filter (fun c => !(decide (c ∈ monetarias)))
  (monetarias, noMonetarias)

/-- Digit run to a natural number (the characters are assumed decimal digits). -/
def natOfDigits (cs : List Char) : Nat :=
  cs.foldl (fun n c => 10 * n + (c.toNat - 48)) 0

/-- The numeric parser behind `pd.to_numeric(..., errors='coerce')` on a
string cell: optional sign, decimal digits with at most one point, at
least one digit; anything else fails to parse. -/
def parseNum (s : String) : Option Rat :=
  let cs := s.toList
  let sgn : Rat := if cs.head? = some '-' then -1 else 1
  let body := if cs.head? = some '-' || cs.head? = some '+' then cs.drop 1 else cs
  if body.all (fun c => c.isDigit || c == '.') && body.count '.' ≤ 1 &&
      body.any Char.isDigit then
    let ip := body.takeWhile (fun c => c != '.')
    let fp := (body.dropWhile (fun c => c != '.')).drop 1
    some (sgn * ((natOfDigits ip : Rat) + (natOfDigits fp : Rat) / ((10 : Rat) ^ fp.length)))
  else none

/-- One cell through `pd.to_numeric(..., errors='coerce')` followed by
`fillna(0)`: numbers survive, parseable text becomes its number, anything
else becomes exactly zero. -/
def coerceCell : Cell → Cell
  | .num q => .num q
  | .text s =>
    match parseNum s with
    | some q => .num q
    | none => .num 0
  | .null => .num 0

/-- `_preparar_columnas_financieras`: coerce every cell of every column
whose (string) name matches a financial keyword; leave the rest alone. -/
def prepararColumnasFinancieras (df : Table) : Table :=
  ⟨df.cols.map (fun col => if esMonetaria col.1 then (col.1, col.2.map coerceCell) else col)⟩

/-- The analyzer configuration (`configuracion`): an optional mapping with
keys `calcular_iva` and `iva_rate`; an absent key means the `dict.get`
default applies. -/
structure Config where
  calcular_iva : Option Bool := none
  iva_rate : Option Rat := none

/-- `self.configuracion.get('calcular_iva', True)`. -/
def Config.getCalcularIva (cfg : Config) : Bool := cfg.calcular_iva.getD true

/-- `self.configuracion.get('iva_rate', 0.16)`. -/
def Config.getIvaRate (cfg : Config) : Rat := cfg.iva_rate.getD 0.16

/-- The totals mapping: an insertion-ordered association list from label
to value, mirroring the Python `dict`. -/
abbrev Totales := List (String × Rat)

/-- `totales[k] = v` on a Python dict: update the value in place if the key
exists, otherwise append the new entry. -/
def setKey : Totales → String → Rat → Totales
  | [], k, v => [(k, v)]
  | kv :: rest, k, v =>
    if kv.1 = k then (kv.1, v) :: rest else kv :: setKey rest k v

/-- `totales.get(k)`: the value at the first (unique, in practice)
occurrence of the key. -/
def getKey : Totales → String → Option Rat
  | [], _ => none
  | kv :: rest, k => if kv.1 = k then some kv.2 else getKey rest k

/-- The numeric value pandas sums a cell as: coerced monetary columns are
all-numeric, and the aggregator in the program only ever sums those. -/
def cellVal : Cell → Rat
  | .num q => q
  | .text _ => 0
  | .null => 0

/-- `self.df[columna]`: the cells of the named column (first match). -/
def columnCells (df : Table) (c : ColName) : List Cell :=
  match df.cols.find? (fun col => col.1 == c) with
  | some col => col.2
  | none => []

/-- `self.df[columna].sum()`. -/
def columnSum (df : Table) (c : ColName) : Rat :=
  ((columnCells df c).map cellVal).sum

/-- The body of the loop in `calcular_totales_financieros` for one
monetary column: record the column total, then, when tax is enabled and
the name does not itself contain "iva", the tax and the tax-inclusive
total. -/
def procesarColumna (df : Table) (cfg : Config) (tot : Totales) (c : ColName) : Totales :=
  let totalColumna := columnSum df c
  let tot1 := setKey tot ("Total " ++ colNameStr c) totalColumna
  if cfg.getCalcularIva && !containsSub "iva" (lowerStr (colNameStr c)) then
    let iva := totalColumna * cfg.getIvaRate
    setKey (setKey tot1 ("IVA de " ++ colNameStr c) iva)
      ("Total con IVA de " ++ colNameStr c) (totalColumna + iva)
  else tot1

/-- The per-column loop of `calcular_totales_financieros`, over the
monetary columns in order, starting from the empty dict. -/
def totalesColumnas (df : Table) (mon : List ColName) (cfg : Config) : Totales :=
  mon.foldl (procesarColumna df cfg) []

/-- The grand-total expression of `calcular_totales_financieros`:
`sum(valor for clave, valor in totales.items() if 'Total con IVA' in clave)`. -/
def grandTotal (tot : Totales) : Rat :=
  ((tot.filter (fun kv => containsSub "Total con IVA" kv.1)).map Prod.snd).sum

/-- `calcular_totales_financieros`: the per-column totals followed by the
`'Total Factura'` grand-total assignment. -/
def calcularTotalesFinancieros (df : Table) (mon : List ColName) (cfg : Config) : Totales :=
  let tot := totalesColumnas df mon cfg
  setKey tot "Total Factura" (grandTotal tot)

/-- The analysis pipeline of `ExcelAnalyzer.__init__` followed by
`calcular_totales_financieros`: coerce the monetary columns, classify the
column names, aggregate. -/
def analizar (raw : Table) (cfg : Config) : Totales :=
  let df := prepararColumnasFinancieras raw
  let mon := (identificarColumnas (df.cols.map Prod.fst)).1
  calcularTotalesFinancieros df mon cfg

/-- The tax-branch condition of the loop in `calcular_totales_financieros`
for one column: tax computation enabled, and the column's lowercase name
does not contain "iva". -/
def columnaCalificaIVA (cfg : Config) (c : ColName) : Bool :=
  cfg.getCalcularIva && !containsSub "iva" (lowerStr (colNameStr c))

/-- The entries the loop body of `calcular_totales_financieros` records
for one monetary column, in insertion order. -/
def entradasColumna (df : Table) (cfg : Config) (c : ColName) : Totales :=
  if columnaCalificaIVA cfg c then
    [("Total " ++ colNameStr c, columnSum df c),
     ("IVA de " ++ colNameStr c, columnSum df c * cfg.getIvaRate),
     ("Total con IVA de " ++ colNameStr c, columnSum df c + columnSum df c * cfg.getIvaRate)]
  else
    [("Total " ++ colNameStr c, columnSum df c)]

/-- The labels the loop records over a list of monetary columns, in order. -/
def clavesEmitidas (df : Table) (cfg : Config) (mon : List ColName) : List String :=
  ((mon.map (entradasColumna df cfg)).flatten).map Prod.fst

/-- A column label is collision-safe when neither its per-column total
label nor its tax label contains the grand-total filter text
"Total con IVA". -/
def etiquetasSeguras (c : ColName) : Bool :=
  !containsSub "Total con IVA" ("Total " ++ colNameStr c) &&
  !containsSub "Total con IVA" ("IVA de " ++ colNameStr c)

/-- Spec-side definition, from the spec's words: the sum of all recorded
"Total con IVA de (column)" entries, i.e. the tax-inclusive totals of the
monetary columns that qualify for tax. -/
def sumaTotalesConIVASpec (df : Table) (mon : List ColName) (cfg : Config) : Rat :=
  ((mon.filter (columnaCalificaIVA cfg)).map
    (fun c => columnSum df c + columnSum df c * cfg.getIvaRate)).sum

/-!  ### Substring search agrees with `List.IsInfix`  -/

theorem startsWithL_iff (t s : List Char) : startsWithL t s = true ↔ t <+: s := by
  induction t generalizing s with
  | nil => simp [startsWithL]
  | cons a as ih =>
    cases s with
    | nil => simp [startsWithL]
    | cons b bs =>
      simp [startsWithL, List.cons_prefix_cons, ih, Bool.and_eq_true, beq_iff_eq]

theorem containsSubL_iff (t s : List Char) : containsSubL t s = true ↔ t <:+: s := by
  induction s with
  | nil => simp [containsSubL, List.isEmpty_iff, List.infix_nil]
  | cons b bs ih =>
    simp [containsSubL, Bool.or_eq_true, startsWithL_iff, ih, List.infix_cons_iff]

theorem containsSub_iff (t s : String) :
    containsSub t s = true ↔ t.toList <:+: s.toList :=
  containsSubL_iff t.toList s.toList

theorem lowerStr_toList (s : String) :
    (lowerStr s).toList = s.toList.map Char.toLower := rfl

/-!  ### The totals dict  -/

theorem setKey_of_not_mem (tot : Totales) (k : String) (v : Rat)
    (h : k ∉ tot.map Prod.fst) : setKey tot k v = tot ++ [(k, v)] := by
  induction tot with
  | nil => rfl
  | cons kv rest ih =>
    simp only [List.map_cons, List.mem_cons] at h
    push_neg at h
    have hne : ¬ kv.1 = k := fun hh => h.1 hh.symm
    simp [setKey, hne, ih h.2]

theorem getKey_setKey_self (tot : Totales) (k : String) (v : Rat) :
    getKey (setKey tot k v) k = some v := by
  induction tot with
  | nil => simp [setKey, getKey]
  | cons kv rest ih =>
    by_cases h : kv.1 = k
    · simp [setKey, getKey, h]
    · simp [setKey, getKey, h, ih]

theorem keys_setKey_of_mem (tot : Totales) (k : String) (v : Rat)
    (h : k ∈ tot.map Prod.fst) :
    (setKey tot k v).map Prod.fst = tot.map Prod.fst := by
  induction tot with
  | nil => simp at h
  | cons kv rest ih =>
    by_cases hk : kv.1 = k
    · simp [setKey, hk]
    · have hr : k ∈ rest.map Prod.fst := by
        simp only [List.map_cons, List.mem_cons] at h
        rcases h with h | h
        · exact absurd h.symm hk
        · exact h
      simp [setKey, hk, ih hr]

theorem mem_keys_setKey (tot : Totales) (k : String) (v : Rat) :
    k ∈ (setKey tot k v).map Prod.fst := by
  induction tot with
  | nil => simp [setKey]
  | cons kv rest ih =>
    by_cases hk : kv.1 = k
    · simp [setKey, hk]
    · have hstep : setKey (kv :: rest) k v = kv :: setKey rest k v := by
        simp [setKey, hk]
      rw [hstep, List.map_cons]
      exact List.mem_cons_of_mem _ ih

theorem nodup_keys_setKey (tot : Totales) (k : String) (v : Rat)
    (h : (tot.map Prod.fst).Nodup) : ((setKey tot k v).map Prod.fst).Nodup := by
  by_cases hk : k ∈ tot.map Prod.fst
  · rw [keys_setKey_of_mem tot k v hk]
    exact h
  · rw [setKey_of_not_mem tot k v hk, List.map_append, List.nodup_append]
    refine ⟨h, by simp, ?_⟩
    intro a ha hmem
    simp only [List.map_cons, List.map_nil, List.mem_cons, List.not_mem_nil, or_false] at hmem
    subst hmem
    exact hk ha

theorem length_filter_key_eq_one (tot : Totales) (k : String)
    (hnd : (tot.map Prod.fst).Nodup) (hmem : k ∈ tot.map Prod.fst) :
    (tot.filter (fun kv => kv.1 == k)).length = 1 := by
  induction tot with
  | nil => simp at hmem
  | cons kv rest ih =>
    simp only [List.map_cons, List.nodup_cons] at hnd
    by_cases hk : kv.1 = k
    · subst hk
      have hrest : rest.filter (fun kv2 => kv2.1 == kv.1) = [] := by
        refine List.filter_eq_nil_iff.mpr ?_
        intro a ha
        simp only [beq_iff_eq]
        intro hEq
        exact hnd.1 (hEq ▸ List.mem_map.mpr ⟨a, ha, rfl⟩)
      simp [List.filter_cons, hrest]
    · have hmem2 : k ∈ rest.map Prod.fst := by
        simp only [List.map_cons, List.mem_cons] at hmem
        rcases hmem with h | h
        · exact absurd h.symm hk
        · exact h
      simp [List.filter_cons, hk, ih hnd.2 hmem2]

/-!  ### Shapes of the recorded labels  -/

theorem total_key_ne_iva_key (s : String) :
    ("Total " ++ s) ≠ ("IVA de " ++ s) := by
  intro h
  have h2 := congrArg String.length h
  rw [String.length_append, String.length_append] at h2
  have e1 : ("Total " : String).length = 6 := rfl
  have e2 : ("IVA de " : String).length = 7 := rfl
  rw [e1, e2] at h2
  omega

theorem total_key_ne_tcv_key (s : String) :
    ("Total " ++ s) ≠ ("Total con IVA de " ++ s) := by
  intro h
  have h2 := congrArg String.length h
  rw [String.length_append, String.length_append] at h2
  have e1 : ("Total " : String).length = 6 := rfl
  have e2 : ("Total con IVA de " : String).length = 17 := rfl
  rw [e1, e2] at h2
  omega

theorem iva_key_ne_tcv_key (s : String) :
    ("IVA de " ++ s) ≠ ("Total con IVA de " ++ s) := by
  intro h
  have h2 := congrArg String.length h
  rw [String.length_append, String.length_append] at h2
  have e1 : ("IVA de " : String).length = 7 := rfl
  have e2 : ("Total con IVA de " : String).length = 17 := rfl
  rw [e1, e2] at h2
  omega

theorem containsSub_needle_tcv (s : String) :
    containsSub "Total con IVA" ("Total con IVA de " ++ s) = true := by
  rw [containsSub_iff]
  refine ⟨[], " de ".toList ++ s.toList, ?_⟩
  have h : ("Total con IVA de " ++ s).toList = "Total con IVA de ".toList ++ s.toList := by
    simp [String.toList, String.data_append]
  have h2 : ("Total con IVA".toList : List Char) ++ " de ".toList = "Total con IVA de ".toList := by
    decide
  rw [h, List.nil_append, ← List.append_assoc, h2]

/-!  ### The loop body appends fresh entries  -/

theorem procesarColumna_eq_append (df : Table) (cfg : Config) (tot : Totales) (c : ColName)
    (h : ∀ k ∈ (entradasColumna df cfg c).map Prod.fst, k ∉ tot.map Prod.fst) :
    procesarColumna df cfg tot c = tot ++ entradasColumna df cfg c := by
  by_cases hq : columnaCalificaIVA cfg c = true
  · have hmem1 : ("Total " ++ colNameStr c) ∈ (entradasColumna df cfg c).map Prod.fst := by
      simp [entradasColumna, hq]
    have hmem2 : ("IVA de " ++ colNameStr c) ∈ (entradasColumna df cfg c).map Prod.fst := by
      simp [entradasColumna, hq]
    have hmem3 : ("Total con IVA de " ++ colNameStr c) ∈ (entradasColumna df cfg c).map Prod.fst := by
      simp [entradasColumna, hq]
    have e1 : setKey tot ("Total " ++ colNameStr c) (columnSum df c)
        = tot ++ [("Total " ++ colNameStr c, columnSum df c)] :=
      setKey_of_not_mem _ _ _ (h _ hmem1)
    have h2 : ("IVA de " ++ colNameStr c) ∉
        (tot ++ [("Total " ++ colNameStr c, columnSum df c)]).map Prod.fst := by
      rw [List.map_append]
      intro hmem
      rcases List.mem_append.mp hmem with hmem | hmem
      · exact h _ hmem2 hmem
      · simp only [List.map_cons, List.map_nil, List.mem_cons, List.not_mem_nil, or_false] at hmem
        exact total_key_ne_iva_key (colNameStr c) hmem.symm
    have e2 : setKey (tot ++ [("Total " ++ colNameStr c, columnSum df c)])
          ("IVA de " ++ colNameStr c) (columnSum df c * cfg.getIvaRate)
        = tot ++ [("Total " ++ colNameStr c, columnSum df c)]
            ++ [("IVA de " ++ colNameStr c, columnSum df c * cfg.getIvaRate)] :=
      setKey_of_not_mem _ _ _ h2
    have h3 : ("Total con IVA de " ++ colNameStr c) ∉
        (tot ++ [("Total " ++ colNameStr c, columnSum df c)]
          ++ [("IVA de " ++ colNameStr c, columnSum df c * cfg.getIvaRate)]).map Prod.fst := by
      rw [List.map_append, List.map_append]
      intro hmem
      rcases List.mem_append.mp hmem with hmem | hmem
      · rcases List.mem_append.mp hmem with hmem | hmem
        · exact h _ hmem3 hmem
        · simp only [List.map_cons, List.map_nil, List.mem_cons, List.not_mem_nil, or_false] at hmem
          exact total_key_ne_tcv_key (colNameStr c) hmem.symm
      · simp only [List.map_cons, List.map_nil, List.mem_cons, List.not_mem_nil, or_false] at hmem
        exact iva_key_ne_tcv_key (colNameStr c) hmem.symm
    have e3 := setKey_of_not_mem _ ("Total con IVA de " ++ colNameStr c)
      (columnSum df c + columnSum df c * cfg.getIvaRate) h3
    have hq2 : (cfg.getCalcularIva && !containsSub "iva" (lowerStr (colNameStr c))) = true := hq
    simp only [procesarColumna, hq2, if_true, e1, e2, e3, entradasColumna, hq]
    simp [List.append_assoc]
  · have hmem1 : ("Total " ++ colNameStr c) ∈ (entradasColumna df cfg c).map Prod.fst := by
      simp [entradasColumna, hq]
    have e1 : setKey tot ("Total " ++ colNameStr c) (columnSum df c)
        = tot ++ [("Total " ++ colNameStr c, columnSum df c)] :=
      setKey_of_not_mem _ _ _ (h _ hmem1)
    have hq2 : (cfg.getCalcularIva && !containsSub "iva" (lowerStr (colNameStr c))) = false := by
      simpa [columnaCalificaIVA] using hq
    simp only [procesarColumna, hq2, Bool.false_eq_true, if_false, e1, entradasColumna, hq]

/-!  ### The whole loop, under collision-free labels  -/

theorem totalesColumnas_aux (df : Table) (cfg : Config) (mon : List ColName) :
    ∀ tot : Totales,
      (clavesEmitidas df cfg mon).Nodup →
      (∀ k ∈ clavesEmitidas df cfg mon, k ∉ tot.map Prod.fst) →
      mon.foldl (procesarColumna df cfg) tot
        = tot ++ (mon.map (entradasColumna df cfg)).flatten := by
  induction mon with
  | nil =>
    intro tot _ _
    simp
  | cons c mon2 ih =>
    intro tot hnd hdisj
    have hkeys : clavesEmitidas df cfg (c :: mon2)
        = (entradasColumna df cfg c).map Prod.fst ++ clavesEmitidas df cfg mon2 := by
      simp [clavesEmitidas]
    rw [hkeys] at hnd hdisj
    rw [List.nodup_append] at hnd
    have hstep : procesarColumna df cfg tot c = tot ++ entradasColumna df cfg c := by
      refine procesarColumna_eq_append df cfg tot c ?_
      intro k hk
      exact hdisj k (List.mem_append.mpr (Or.inl hk))
    have hdisj2 : ∀ k ∈ clavesEmitidas df cfg mon2,
        k ∉ (tot ++ entradasColumna df cfg c).map Prod.fst := by
      intro k hk
      rw [List.map_append]
      intro hmem
      rcases List.mem_append.mp hmem with hmem | hmem
      · exact hdisj k (List.mem_append.mpr (Or.inr hk)) hmem
      · exact hnd.2.2 hmem hk
    calc (c :: mon2).foldl (procesarColumna df cfg) tot
        = mon2.foldl (procesarColumna df cfg) (tot ++ entradasColumna df cfg c) := by
          rw [List.foldl_cons, hstep]
      _ = tot ++ entradasColumna df cfg c ++ (mon2.map (entradasColumna df cfg)).flatten :=
          ih _ hnd.2.1 hdisj2
      _ = tot ++ ((c :: mon2).map (entradasColumna df cfg)).flatten := by
          simp [List.append_assoc]

theorem totalesColumnas_eq_flatten (df : Table) (cfg : Config) (mon : List ColName)
    (hnd : (clavesEmitidas df cfg mon).Nodup) :
    totalesColumnas df mon cfg = (mon.map (entradasColumna df cfg)).flatten := by
  have h := totalesColumnas_aux df cfg mon [] hnd (by simp)
  simpa [totalesColumnas] using h

/-!  ### The grand total over the recorded entries  -/

theorem grandTotal_append (a b : Totales) :
    grandTotal (a ++ b) = grandTotal a + grandTotal b := by
  simp [grandTotal, List.filter_append, List.map_append, List.sum_append]

theorem grandTotal_entradas (df : Table) (cfg : Config) (c : ColName)
    (hseg : etiquetasSeguras c = true) :
    grandTotal (entradasColumna df cfg c)
      = if columnaCalificaIVA cfg c then
          columnSum df c + columnSum df c * cfg.getIvaRate
        else 0 := by
  simp only [etiquetasSeguras, Bool.and_eq_true, Bool.not_eq_true'] at hseg
  by_cases hq : columnaCalificaIVA cfg c = true
  · simp [entradasColumna, grandTotal, hq, hseg.1, hseg.2, containsSub_needle_tcv]
  · simp [entradasColumna, grandTotal, hq, hseg.1]

theorem grandTotal_flatten_eq_suma (df : Table) (cfg : Config) (mon : List ColName)
    (hseg : ∀ c ∈ mon, etiquetasSeguras c = true) :
    grandTotal ((mon.map (entradasColumna df cfg)).flatten)
      = sumaTotalesConIVASpec df mon cfg := by
  induction mon with
  | nil => simp [grandTotal, sumaTotalesConIVASpec]
  | cons c mon2 ih =>
    have hc := hseg c (List.mem_cons_self c mon2)
    have hrest := ih (fun x hx => hseg x (List.mem_cons_of_mem c hx))
    rw [List.map_cons, List.flatten_cons, grandTotal_append, hrest,
      grandTotal_entradas df cfg c hc]
    by_cases hq : columnaCalificaIVA cfg c = true
    · simp [sumaTotalesConIVASpec, List.filter_cons, hq]
    · simp [sumaTotalesConIVASpec, List.filter_cons, hq]

/-!  ### Keys of the built totals stay distinct  -/

theorem nodup_keys_procesarColumna (df : Table) (cfg : Config) (tot : Totales) (c : ColName)
    (h : (tot.map Prod.fst).Nodup) :
    ((procesarColumna df cfg tot c).map Prod.fst).Nodup := by
  by_cases hq : (cfg.getCalcularIva && !containsSub "iva" (lowerStr (colNameStr c))) = true
  · simp only [procesarColumna, hq, if_true]
    exact nodup_keys_setKey _ _ _ (nodup_keys_setKey _ _ _ (nodup_keys_setKey _ _ _ h))
  · simp only [procesarColumna, hq, Bool.false_eq_true, if_false]
    exact nodup_keys_setKey _ _ _ h

theorem nodup_keys_totalesColumnas (df : Table) (cfg : Config) (mon : List ColName) :
    ((totalesColumnas df mon cfg).map Prod.fst).Nodup := by
  suffices h : ∀ tot : Totales, (tot.map Prod.fst).Nodup →
      ((mon.foldl (procesarColumna df cfg) tot).map Prod.fst).Nodup from
    h [] (by simp)
  induction mon with
  | nil =>
    intro tot h
    simpa using h
  | cons c mon2 ih =>
    intro tot h
    rw [List.foldl_cons]
    exact ih _ (nodup_keys_procesarColumna df cfg tot c h)

theorem coerceCell_coerceCell (cell : Cell) :
    coerceCell (coerceCell cell) = coerceCell cell := by
  cases cell with
  | num q => rfl
  | text s => cases hp : parseNum s <;> simp [coerceCell, hp]
  | null => rfl

/-- C2: for every column-name list, `_identificar_columnas` partitions it
totally and disjointly: the two lists together are a permutation of the
input, each keeps the table order, and no name is in both. -/
theorem c2_particion_total_y_disjunta (cols : List ColName) :
    List.Perm ((identificarColumnas cols).1 ++ (identificarColumnas cols).2) cols
    ∧ List.Sublist (identificarColumnas cols).1 cols
    ∧ List.Sublist (identificarColumnas cols).2 cols
    ∧ List.Disjoint (identificarColumnas cols).1 (identificarColumnas cols).2 := by
  have h1 : (identificarColumnas cols).1 = cols.filter esMonetaria := rfl
  have h2 : (identificarColumnas cols).2
      = cols.filter (fun c => !(decide (c ∈ cols.filter esMonetaria))) := rfl
  have hno : (identificarColumnas cols).2 = cols.filter (fun c => !esMonetaria c) := by
    rw [h2]
    refine List.filter_congr ?_
    intro c hc
    cases hm : esMonetaria c
    · simp [List.mem_filter, hm]
    · simp [List.mem_filter, hc, hm]
  refine ⟨?_, ?_, ?_, ?_⟩
  · rw [h1, hno]
    exact List.filter_append_perm esMonetaria cols
  · rw [h1]
    exact List.filter_sublist cols
  · rw [hno]
    exact List.filter_sublist cols
  · intro a ha hb
    rw [h1] at ha
    rw [hno] at hb
    have hma := (List.mem_filter.mp ha).2
    have hmb := (List.mem_filter.mp hb).2
    rw [hma] at hmb
    exact absurd hmb (by simp)

/-- C3: a string column name classifies as monetary exactly when its
lowercase form contains one of the eight fixed keywords as an (unanchored)
substring; in particular "Precio Unitario" and "PRECIOSO" both classify
monetary. -/
theorem c3_monetaria_sii_subcadena_clave :
    (∀ s : String, esMonetaria (.str s) = true ↔
        ∃ t ∈ COLUMNAS_FINANCIERAS, t.toList <:+: s.toList.map Char.toLower)
    ∧ COLUMNAS_FINANCIERAS
        = ["monto", "subtotal", "iva", "total", "descuento", "impuesto", "factura", "precio"]
    ∧ esMonetaria (.str "Precio Unitario") = true
    ∧ esMonetaria (.str "PRECIOSO") = true := by
  refine ⟨fun s => ?_, rfl, by decide, by decide⟩
  simp only [esMonetaria, List.any_eq_true, containsSub_iff, lowerStr_toList]

/-- C4: a non-string column label (an integer label) is never classified
monetary: it lands in the non-monetary partition whenever it is a column
of the table. -/
theorem c4_etiqueta_no_cadena_nunca_monetaria (cols : List ColName) (n : Int)
    (h : ColName.intLabel n ∈ cols) :
    ColName.intLabel n ∉ (identificarColumnas cols).1
    ∧ ColName.intLabel n ∈ (identificarColumnas cols).2 := by
  have h1 : (identificarColumnas cols).1 = cols.filter esMonetaria := rfl
  constructor
  · rw [h1]
    intro hmem
    have hm := (List.mem_filter.mp hmem).2
    simp [esMonetaria] at hm
  · show ColName.intLabel n ∈ cols.filter (fun c => !(decide (c ∈ cols.filter esMonetaria)))
    refine List.mem_filter.mpr ⟨h, ?_⟩
    simp only [Bool.not_eq_true', decide_eq_false_iff_not]
    intro hmem
    have hm := (List.mem_filter.mp hmem).2
    simp [esMonetaria] at hm

theorem c4_etiqueta_no_cadena_witness :
    ColName.intLabel 7 ∈ (identificarColumnas [ColName.intLabel 7, ColName.str "Precio"]).2 :=
  (c4_etiqueta_no_cadena_nunca_monetaria [ColName.intLabel 7, ColName.str "Precio"] 7
    (List.mem_cons_self _ _)).2

/-- C8: numeric coercion is idempotent: an all-numeric column maps to
itself, and running the coercion pass twice over a table equals running
it once. -/
theorem c8_coercion_idempotente :
    (∀ cells : List Cell, (∀ cell ∈ cells, ∃ q : Rat, cell = .num q) →
        cells.map coerceCell = cells)
    ∧ (∀ df : Table,
        prepararColumnasFinancieras (prepararColumnasFinancieras df)
          = prepararColumnasFinancieras df) := by
  constructor
  · intro cells h
    induction cells with
    | nil => rfl
    | cons cell rest ih =>
      obtain ⟨q, rfl⟩ := h cell (List.mem_cons_self _ _)
      rw [List.map_cons, ih (fun x hx => h x (List.mem_cons_of_mem _ hx))]
      rfl
  · intro df
    simp only [prepararColumnasFinancieras, List.map_map]
    congr 1
    refine List.map_congr_left ?_
    intro col _
    by_cases hm : esMonetaria col.1 = true
    · simp [Function.comp, hm, List.map_map, Function.comp_def,
        coerceCell_coerceCell]
    · simp [Function.comp, hm]

theorem c8_coercion_idempotente_witness :
    [Cell.num 1, Cell.num 2].map coerceCell = [Cell.num 1, Cell.num 2] :=
  c8_coercion_idempotente.1 [Cell.num 1, Cell.num 2]
    (by
      intro cell hc
      rcases List.mem_cons.mp hc with h | hc2
      · exact ⟨1, h⟩
      · rcases List.mem_cons.mp hc2 with h | h
        · exact ⟨2, h⟩
        · exact absurd h (List.not_mem_nil _))

/-- C9: the coercion pass is length- and name-preserving, and leaves every
column that is not classified monetary exactly as it was, cells and all. -/
theorem c9_solo_columnas_monetarias_cambian (df : Table) :
    (prepararColumnasFinancieras df).cols.length = df.cols.length
    ∧ ∀ (i : Nat) (c : ColName) (cells : List Cell),
        df.cols[i]? = some (c, cells) →
        ((prepararColumnasFinancieras df).cols[i]?.map Prod.fst = some c
          ∧ (esMonetaria c = false →
              (prepararColumnasFinancieras df).cols[i]? = some (c, cells))) := by
  constructor
  · simp [prepararColumnasFinancieras]
  · intro i c cells hcol
    constructor
    · simp only [prepararColumnasFinancieras, List.getElem?_map, hcol, Option.map_some]
      by_cases hm : esMonetaria c = true <;> simp [hm]
    · intro hm
      simp only [prepararColumnasFinancieras, List.getElem?_map, hcol, Option.map_some]
      simp [hm]

theorem c9_solo_columnas_monetarias_witness :
    (prepararColumnasFinancieras
        ⟨[(ColName.str "Fecha", [Cell.text "x"]), (ColName.intLabel 7, [Cell.null])]⟩).cols[0]?
      = some (ColName.str "Fecha", [Cell.text "x"]) :=
  ((c9_solo_columnas_monetarias_cambian
      ⟨[(ColName.str "Fecha", [Cell.text "x"]), (ColName.intLabel 7, [Cell.null])]⟩).2
    0 (ColName.str "Fecha") [Cell.text "x"] rfl).2 (by decide)

/-- C5: over a monetary column, the coercion step is total and
length-preserving: every cell becomes a number, an unparseable or null
cell becomes exactly zero, numeric and parseable cells keep their value,
and an empty column coerces to an empty column. -/
theorem c5_coercion_nunca_falla (df : Table) (i : Nat) (c : ColName) (cells : List Cell)
    (hcol : df.cols[i]? = some (c, cells)) (hmon : esMonetaria c = true) :
    (prepararColumnasFinancieras df).cols[i]? = some (c, cells.map coerceCell)
    ∧ (cells.map coerceCell).length = cells.length
    ∧ (∀ cell ∈ cells, ∃ q : Rat, coerceCell cell = .num q
        ∧ (cell = .null → q = 0)
        ∧ (∀ s, cell = .text s → parseNum s = none → q = 0)
        ∧ (∀ s q0, cell = .text s → parseNum s = some q0 → q = q0)
        ∧ (∀ q0, cell = .num q0 → q = q0))
    ∧ (cells = [] → (prepararColumnasFinancieras df).cols[i]? = some (c, ([] : List Cell))) := by
  have hmap : (prepararColumnasFinancieras df).cols[i]? = some (c, cells.map coerceCell) := by
    simp only [prepararColumnasFinancieras, List.getElem?_map, hcol, Option.map_some]
    simp [hmon]
  refine ⟨hmap, by simp, ?_, ?_⟩
  · intro cell _
    cases cell with
    | num q =>
      refine ⟨q, rfl, by simp, by simp, by simp, ?_⟩
      intro q0 hq
      cases hq
      rfl
    | text s =>
      cases hp : parseNum s with
      | none =>
        refine ⟨0, by simp [coerceCell, hp], by simp, by simp, ?_, by simp⟩
        intro s2 q0 he hq
        cases he
        rw [hp] at hq
        cases hq
      | some q =>
        refine ⟨q, by simp [coerceCell, hp], by simp, ?_, ?_, by simp⟩
        · intro s2 he hq
          cases he
          rw [hp] at hq
          cases hq
        · intro s2 q0 he hq
          cases he
          rw [hp] at hq
          cases hq
          rfl
    | null =>
      exact ⟨0, rfl, fun _ => rfl, by simp, by simp, by simp⟩
  · intro hnil
    subst hnil
    simpa using hmap

theorem c5_coercion_nunca_falla_witness :
    (prepararColumnasFinancieras ⟨[(ColName.str "Precio", [Cell.text "abc", Cell.text "", Cell.num 50])]⟩).cols[0]?
      = some (ColName.str "Precio", [Cell.text "abc", Cell.text "", Cell.num 50].map coerceCell) :=
  (c5_coercion_nunca_falla ⟨[(ColName.str "Precio", [Cell.text "abc", Cell.text "", Cell.num 50])]⟩
    0 (ColName.str "Precio") [Cell.text "abc", Cell.text "", Cell.num 50] rfl (by decide)).1

theorem getKey_entradas_iva (df : Table) (cfg : Config) (c : ColName) :
    getKey (entradasColumna df cfg c) ("IVA de " ++ colNameStr c)
      = if columnaCalificaIVA cfg c then some (columnSum df c * cfg.getIvaRate)
        else none := by
  by_cases hq : columnaCalificaIVA cfg c = true
  · simp [entradasColumna, hq, getKey, total_key_ne_iva_key (colNameStr c)]
  · simp [entradasColumna, hq, getKey, total_key_ne_iva_key (colNameStr c)]

theorem getKey_entradas_tcv (df : Table) (cfg : Config) (c : ColName) :
    getKey (entradasColumna df cfg c) ("Total con IVA de " ++ colNameStr c)
      = if columnaCalificaIVA cfg c then
          some (columnSum df c + columnSum df c * cfg.getIvaRate)
        else none := by
  by_cases hq : columnaCalificaIVA cfg c = true
  · simp [entradasColumna, hq, getKey, total_key_ne_tcv_key (colNameStr c),
      iva_key_ne_tcv_key (colNameStr c)]
  · simp [entradasColumna, hq, getKey, total_key_ne_tcv_key (colNameStr c)]

/-- C6: the loop records "IVA de (column)" and "Total con IVA de (column)"
for a monetary column exactly when tax computation is enabled (default
true when the key is absent) and the column's lowercase name does not
contain "iva"; the rate defaults to 0.16 when absent, and a column named
"IVA" yields only its "Total IVA" entry and a zero grand total. -/
theorem c6_entradas_iva_sii_configurado (df : Table) (cfg : Config) (s : String) :
    (getKey (procesarColumna df cfg [] (.str s)) ("IVA de " ++ s)
      = if cfg.getCalcularIva && !containsSub "iva" (lowerStr s) then
          some (columnSum df (.str s) * cfg.getIvaRate)
        else none)
    ∧ (getKey (procesarColumna df cfg [] (.str s)) ("Total con IVA de " ++ s)
      = if cfg.getCalcularIva && !containsSub "iva" (lowerStr s) then
          some (columnSum df (.str s) + columnSum df (.str s) * cfg.getIvaRate)
        else none)
    ∧ (∀ r : Option Rat, Config.getCalcularIva ⟨none, r⟩ = true)
    ∧ (∀ b : Option Bool, Config.getIvaRate ⟨b, none⟩ = 0.16)
    ∧ analizar ⟨[(.str "IVA", [.num 10, .num 20])]⟩ {}
        = [("Total IVA", 30), ("Total Factura", 0)] := by
  have hep : procesarColumna df cfg [] (.str s) = entradasColumna df cfg (.str s) := by
    have h := procesarColumna_eq_append df cfg [] (.str s) (by simp)
    simpa using h
  refine ⟨?_, ?_, fun r => rfl, fun b => rfl, ?_⟩
  · rw [hep]
    exact getKey_entradas_iva df cfg (.str s)
  · rw [hep]
    exact getKey_entradas_tcv df cfg (.str s)
  · simp +decide only [analizar, prepararColumnasFinancieras, identificarColumnas,
      calcularTotalesFinancieros, totalesColumnas, procesarColumna, grandTotal,
      setKey, columnSum, columnCells, cellVal, coerceCell, esMonetaria,
      colNameStr, Config.getCalcularIva, Config.getIvaRate, List.map, List.filter,
      List.foldl, List.find?, List.sum, Option.getD, List.foldr]
    norm_num
    all_goals decide

/-- The table of the spec's Scenario A. -/
def tablaEscenarioA : Table :=
  ⟨[(.str "Fecha", [.text "2024-01-01", .text "2024-01-02"]),
    (.str "Precio", [.num 100, .num 200]),
    (.str "Cantidad", [.num 1, .num 2])]⟩

/-- The configuration of the spec's Scenario A. -/
def cfgEscenarioA : Config := ⟨some true, some 0.16⟩

/-- C7: Scenario A end to end: only "Precio" classifies monetary, and the
returned totals are exactly the four entries, in insertion order. -/
theorem c7_escenario_a :
    (identificarColumnas (tablaEscenarioA.cols.map Prod.fst)).1 = [ColName.str "Precio"]
    ∧ analizar tablaEscenarioA cfgEscenarioA
      = [("Total Precio", 300), ("IVA de Precio", 48),
         ("Total con IVA de Precio", 348), ("Total Factura", 348)] := by
  constructor
  · decide
  · simp +decide only [analizar, tablaEscenarioA, cfgEscenarioA, prepararColumnasFinancieras,
      identificarColumnas, calcularTotalesFinancieros, totalesColumnas, procesarColumna,
      grandTotal, setKey, columnSum, columnCells, cellVal, coerceCell, esMonetaria,
      colNameStr, Config.getCalcularIva, Config.getIvaRate, List.map, List.filter,
      List.foldl, List.find?, List.sum, Option.getD, List.foldr]
    norm_num
    all_goals decide

/-- C10: the grand-total assignment always leaves exactly one
"Total Factura" entry whose value is the grand total; for a table with a
monetary column named "Factura", that assignment overwrites the column's
own per-column total in place, so no separate per-column total remains. -/
theorem c10_colision_total_factura :
    (∀ (df : Table) (mon : List ColName) (cfg : Config),
        ((calcularTotalesFinancieros df mon cfg).filter
            (fun kv => kv.1 == "Total Factura")).length = 1
        ∧ getKey (calcularTotalesFinancieros df mon cfg) "Total Factura"
            = some (grandTotal (totalesColumnas df mon cfg)))
    ∧ analizar ⟨[(.str "Factura", [.num 100])]⟩ {}
        = [("Total Factura", 116), ("IVA de Factura", 16),
           ("Total con IVA de Factura", 116)] := by
  constructor
  · intro df mon cfg
    constructor
    · refine length_filter_key_eq_one _ _ ?_ ?_
      · exact nodup_keys_setKey _ _ _ (nodup_keys_totalesColumnas df cfg mon)
      · exact mem_keys_setKey _ _ _
    · exact getKey_setKey_self _ _ _
  · simp +decide only [analizar, prepararColumnasFinancieras, identificarColumnas,
      calcularTotalesFinancieros, totalesColumnas, procesarColumna, grandTotal,
      setKey, columnSum, columnCells, cellVal, coerceCell, esMonetaria,
      colNameStr, Config.getCalcularIva, Config.getIvaRate, List.map, List.filter,
      List.foldl, List.find?, List.sum, Option.getD, List.foldr]
    norm_num
    all_goals decide

/-- A table whose only column is named "con IVA": monetary (it contains
the keyword "iva"), excluded from tax entries, yet its per-column total
label "Total con IVA" matches the grand-total filter text. -/
def tablaConIVA : Table := ⟨[(.str "con IVA", [.num 10])]⟩

/-- The monetary columns the pipeline identifies for `tablaConIVA`. -/
def monConIVA : List ColName :=
  (identificarColumnas ((prepararColumnasFinancieras tablaConIVA).cols.map Prod.fst)).1

/-- C1 fails as stated: for the table with the single monetary column
"con IVA" (default configuration), no column qualifies for tax, so no
"Total con IVA de (column)" entry is recorded and their sum is 0, yet the
returned "Total Factura" is 10, because the per-column total label
"Total con IVA" matches the grand-total substring filter. -/
theorem c1_gran_total_cex :
    monConIVA = [ColName.str "con IVA"]
    ∧ monConIVA.filter (columnaCalificaIVA {}) = []
    ∧ sumaTotalesConIVASpec (prepararColumnasFinancieras tablaConIVA) monConIVA {} = 0
    ∧ getKey (analizar tablaConIVA {}) "Total Factura" = some 10 := by
  have hfil : monConIVA.filter (columnaCalificaIVA {}) = [] := by decide
  refine ⟨by decide, hfil, ?_, ?_⟩
  · simp only [sumaTotalesConIVASpec, hfil, List.map_nil, List.sum_nil]
  · simp +decide only [analizar, tablaConIVA, monConIVA, prepararColumnasFinancieras,
      identificarColumnas, calcularTotalesFinancieros, totalesColumnas, procesarColumna,
      grandTotal, setKey, getKey, columnSum, columnCells, cellVal, coerceCell, esMonetaria,
      colNameStr, Config.getCalcularIva, Config.getIvaRate, List.map, List.filter,
      List.foldl, List.find?, List.sum, Option.getD, List.foldr]
    norm_num

/-- C1 (amended): when the labels the loop records are pairwise distinct
and no per-column total or tax label itself contains the text
"Total con IVA" (which the counterexample's column name "con IVA"
violates), the returned "Total Factura" equals the sum of all recorded
"Total con IVA de (column)" entries, and equals zero when no monetary
column qualifies for tax (in particular when there are none). -/
theorem c1_gran_total_amended (df : Table) (mon : List ColName) (cfg : Config)
    (hnd : (clavesEmitidas df cfg mon).Nodup)
    (hseg : ∀ c ∈ mon, etiquetasSeguras c = true) :
    getKey (calcularTotalesFinancieros df mon cfg) "Total Factura"
        = some (sumaTotalesConIVASpec df mon cfg)
    ∧ (mon.filter (columnaCalificaIVA cfg) = [] →
        getKey (calcularTotalesFinancieros df mon cfg) "Total Factura" = some 0) := by
  have hmain : getKey (calcularTotalesFinancieros df mon cfg) "Total Factura"
      = some (grandTotal (totalesColumnas df mon cfg)) := getKey_setKey_self _ _ _
  have heq : grandTotal (totalesColumnas df mon cfg) = sumaTotalesConIVASpec df mon cfg := by
    rw [totalesColumnas_eq_flatten df cfg mon hnd]
    exact grandTotal_flatten_eq_suma df cfg mon hseg
  refine ⟨by rw [hmain, heq], fun hnone => ?_⟩
  rw [hmain, heq]
  simp only [sumaTotalesConIVASpec, hnone, List.map_nil, List.sum_nil]

theorem c1_gran_total_amended_witness :
    getKey (calcularTotalesFinancieros ⟨[(ColName.str "Precio", [Cell.num 100, Cell.num 200])]⟩
        [ColName.str "Precio"] {}) "Total Factura"
      = some (sumaTotalesConIVASpec ⟨[(ColName.str "Precio", [Cell.num 100, Cell.num 200])]⟩
        [ColName.str "Precio"] {}) :=
  (c1_gran_total_amended ⟨[(ColName.str "Precio", [Cell.num 100, Cell.num 200])]⟩
    [ColName.str "Precio"] {} (by decide) (by decide)).1
